import Mathlib

/-!
# Event processor: the listener of `db/listener.go`

A shallow embedding of `Listener`, `revertVaultEvent` and `processVaultEvent`.

* The materialized store and the connection are external: every call the code
  makes on `db` is an entry of type `Call`, answered by a `Store` (a state
  machine over an arbitrary state `σ`), and recorded in the `log` of the
  `World` in the order the code issues it.
* The decoders of package `adaptors` are external: they are the fields of
  `Adaptors`.
* Go `error` values are `Option Err` (`none` is `nil`); a function returning
  `(T, error)` returns `Except Err T`; a run-time panic (index out of range)
  is the result `Result.panic`.
* `uint64` values are `Nat` (the code does no arithmetic on them) and
  `models.BigInt` is `Int`.
-/

namespace EventProcessor

/-- A Go `error` that is not nil. -/
abbrev Err := String

/-- A field element of the source chain. -/
abbrev Felt := Nat

/-- The arbitrary-precision integer `models.BigInt`. -/
abbrev BigInt := Int

/-- Modelled from the spec: the type `models.Event` (block number, event kind,
owning vault address, timestamp and a payload for the decoder); its
declaration is in package `models`. -/
structure Event where
  BlockNumber : Nat
  EventName : String
  VaultAddress : String
  Timestamp : Nat
  Keys : List Felt
  Data : List Felt
  deriving DecidableEq, Repr

/-- The decoded chain event returned by `adaptors.GetJunoEvent`; the code reads
`junoEvent.Data[2]` directly. -/
structure JunoEvent where
  Keys : List Felt
  Data : List Felt
  deriving DecidableEq, Repr

/-- Modelled from the spec: the type `models.OptionRound`, with the fields the
listener reads or writes (`VaultAddress`, `OptionsSold`, `DeploymentDate`) and
its key; its declaration is in package `models`. -/
structure OptionRound where
  Address : String
  VaultAddress : String
  OptionsSold : BigInt
  DeploymentDate : Nat
  deriving DecidableEq, Repr

/-- Modelled from the spec: the type `models.Bid` (key, owning round, buyer,
amount, price, tree nonce); its declaration is in package `models`. -/
structure Bid where
  BidID : String
  RoundAddress : String
  BuyerAddress : String
  Amount : BigInt
  Price : BigInt
  TreeNonce : Nat
  deriving DecidableEq, Repr

/-- Modelled from the spec: the type `models.OptionBuyer`, keyed by buyer and
round address with the two flags; its declaration is in package `models`. -/
structure OptionBuyer where
  Address : String
  RoundAddress : String
  HasMinted : Bool
  HasRefunded : Bool
  deriving DecidableEq, Repr

/-- The decoders of package `adaptors`, which is not part of the listener: each
field is the function of the same name, returning its results as a tuple in the
order of the Go results.  They are taken to return on every event. -/
structure Adaptors where
  GetJunoEvent : Event → JunoEvent
  /-- The composition `FeltToHexString(f.Bytes())`. -/
  FeltToHexString : Felt → String
  /-- Results: lpAddress, lpUnlocked, vaultUnlocked. -/
  DepositOrWithdraw : JunoEvent → String × BigInt × BigInt
  /-- Results: lpAddress, amount, vaultStashed. -/
  StashWithdrawn : JunoEvent → String × BigInt × BigInt
  /-- Results: lpAddress, bps, roundId, accountQueuedBefore, accountQueuedNow,
  vaultQueuedNow. -/
  WithdrawalQueued : JunoEvent → String × BigInt × Nat × BigInt × BigInt × BigInt
  RoundDeployed : JunoEvent → OptionRound
  /-- Results: strikePrice, capLevel, reservePrice, roundAddress. -/
  PricingDataSet : JunoEvent → BigInt × BigInt × BigInt × String
  /-- Results: availableOptions, startingLiquidity, roundAddress. -/
  AuctionStarted : JunoEvent → BigInt × BigInt × String
  /-- Results: optionsSold, clearingPrice, unsoldLiquidity, clearingNonce,
  premiums, roundAddress. -/
  AuctionEnded : JunoEvent → BigInt × BigInt × BigInt × Nat × BigInt × String
  /-- Results: settlementPrice, payoutPerOption, roundAddress. -/
  OptionRoundSettled : JunoEvent → BigInt × BigInt × String
  /-- Results: bid, buyer. -/
  BidPlaced : JunoEvent → Bid × OptionBuyer
  /-- Results: bidId, second result (named price by the applier and amount by
  the reverter), treeNonceOld, treeNonceNew, roundAddress. -/
  BidUpdated : JunoEvent → String × BigInt × Nat × Nat × String
  /-- Results: buyerAddress, second result, roundAddress. -/
  OptionsMinted : JunoEvent → String × BigInt × String
  /-- Results: buyerAddress, second result, mintableOptionsExercised, fourth
  result, roundAddress. -/
  OptionsExercised : JunoEvent → String × BigInt × BigInt × BigInt × String
  /-- Results: buyerAddress, second result, roundAddress. -/
  UnusedBidsRefunded : JunoEvent → String × BigInt × String

/-- Every call the listener makes on `db`, with its arguments in the order of
the Go call. -/
inductive Call where
  | Exec (sql : String)
  | BeginTx
  | CommitTx
  | RollbackTx
  | GetEventsByBlockNumber (blockNumber : Nat)
  | GetOptionRoundByAddress (roundAddress : String)
  | DepositIndex (vaultAddress lpAddress : String) (lpUnlocked vaultUnlocked : BigInt)
      (blockNumber : Nat)
  | WithdrawIndex (vaultAddress lpAddress : String) (lpUnlocked vaultUnlocked : BigInt)
      (blockNumber : Nat)
  | WithdrawalQueuedIndex (lpAddress vaultAddress : String) (roundId : Nat) (bps : BigInt)
      (accountQueuedBefore accountQueuedNow vaultQueuedNow : BigInt)
  | StashWithdrawnIndex (vaultAddress lpAddress : String) (amount vaultStashed : BigInt)
      (blockNumber : Nat)
  | RoundDeployedIndex (optionRound : OptionRound)
  | PricingDataSetIndex (roundAddress : String) (strikePrice capLevel reservePrice : BigInt)
  | AuctionStartedIndex (vaultAddress roundAddress : String) (blockNumber : Nat)
      (availableOptions startingLiquidity : BigInt)
  | AuctionEndedIndex (prevStateOptionRound : OptionRound) (roundAddress : String)
      (blockNumber : Nat) (clearingNonce : Nat)
      (optionsSold clearingPrice premiums unsoldLiquidity : BigInt)
  | RoundSettledIndex (prevStateOptionRound : OptionRound) (roundAddress : String)
      (blockNumber : Nat) (settlementPrice optionsSold payoutPerOption : BigInt)
  | BidPlacedIndex (bid : Bid) (buyer : OptionBuyer)
  | BidUpdatedIndex (roundAddress bidId : String) (price : BigInt) (treeNonceNew : Nat)
  | UpdateOptionBuyerFields (buyerAddress roundAddress : String) (fields : List (String × Bool))
  | DepositOrWithdrawOrStashWithdrawRevert (vaultAddress lpAddress : String) (blockNumber : Nat)
  | WithdrawalQueuedRevertIndex (lpAddress vaultAddress : String) (roundId : Nat) (bps : BigInt)
      (accountQueuedBefore accountQueuedNow vaultQueuedNow : BigInt) (blockNumber : Nat)
  | DeleteOptionRound (roundAddress : String)
  | AuctionStartedRevert (vaultAddress roundAddress : String) (blockNumber : Nat)
  | AuctionEndedRevert (vaultAddress roundAddress : String) (blockNumber : Nat)
  | RoundSettledRevert (vaultAddress roundAddress : String) (blockNumber : Nat)
  | BidPlacedRevert (bidId roundAddress : String)
  | BidUpdatedRevert (bidId roundAddress : String) (amount : BigInt) (treeNonceOld : Nat)
  deriving DecidableEq, Repr

/-- The three calls that delimit a transaction. -/
def Call.isTx : Call → Bool
  | .BeginTx => true
  | .CommitTx => true
  | .RollbackTx => true
  | _ => false

/-- The external store and connection behind `db`, as a state machine on `σ`:
`exec` answers the calls whose only result is an error, the two others answer
the calls that return a value with an error. -/
structure Store (σ : Type) where
  exec : Call → σ → Option Err × σ
  GetOptionRoundByAddress : String → σ → Except Err OptionRound × σ
  GetEventsByBlockNumber : Nat → σ → Except Err (List Event) × σ

/-- The state of a run: the state of the store and the calls issued so far,
oldest first. -/
structure World (σ : Type) where
  store : σ
  log : List Call
  deriving DecidableEq, Repr

/-- What a call of `revertVaultEvent` or `processVaultEvent` does: return nil,
return an error, or panic. -/
inductive Result where
  | nil
  | error (e : Err)
  | panic
  deriving DecidableEq, Repr

variable {σ : Type}

/-- Issue a call whose only result is an error. -/
def call (S : Store σ) (c : Call) (w : World σ) : Option Err × World σ :=
  ((S.exec c w.store).1, ⟨(S.exec c w.store).2, w.log ++ [c]⟩)

/-- Issue `db.GetOptionRoundByAddress(roundAddress)`. -/
def lookupRound (S : Store σ) (roundAddress : String) (w : World σ) :
    Except Err OptionRound × World σ :=
  ((S.GetOptionRoundByAddress roundAddress w.store).1,
    ⟨(S.GetOptionRoundByAddress roundAddress w.store).2,
      w.log ++ [Call.GetOptionRoundByAddress roundAddress]⟩)

/-- Issue `db.GetEventsByBlockNumber(blockNumber)`. -/
def fetchEvents (S : Store σ) (blockNumber : Nat) (w : World σ) :
    Except Err (List Event) × World σ :=
  ((S.GetEventsByBlockNumber blockNumber w.store).1,
    ⟨(S.GetEventsByBlockNumber blockNumber w.store).2,
      w.log ++ [Call.GetEventsByBlockNumber blockNumber]⟩)

/-- The end of both handlers: `if err != nil { return err }; return nil`, on the
variable `err` declared at the top of the function. -/
def finish (err : Option Err) (w : World σ) : Result × World σ :=
  match err with
  | some e => (Result.error e, w)
  | none => (Result.nil, w)

/-- The function `revertVaultEvent` (lines 89-191).  `err` is the variable
declared by `var err error`.  In the cases AuctionStarted, AuctionEnded and
OptionRoundSettled the statement `prevStateOptionRound, err := ...` declares a
second `err` in the scope of the case clause, which also receives the result
of the revert call; the variable tested after the switch is the first one. -/
def revertVaultEvent (A : Adaptors) (S : Store σ) (event : Event) (w : World σ) :
    Result × World σ :=
  let junoEvent := A.GetJunoEvent event
  let err : Option Err := none
  if event.EventName = "ContractDeployed" then
    finish err w
  else if event.EventName = "Deposit" ∨ event.EventName = "Withdraw" then
    let lpAddress := (A.DepositOrWithdraw junoEvent).1
    let r := call S
      (Call.DepositOrWithdrawOrStashWithdrawRevert event.VaultAddress lpAddress event.BlockNumber) w
    finish r.1 r.2
  else if event.EventName = "StashWithdrawn" then
    let lpAddress := (A.StashWithdrawn junoEvent).1
    let r := call S
      (Call.DepositOrWithdrawOrStashWithdrawRevert event.VaultAddress lpAddress event.BlockNumber) w
    finish r.1 r.2
  else if event.EventName = "WithdrawalQueued" then
    let d := A.WithdrawalQueued junoEvent
    let lpAddress := d.1
    let bps := d.2.1
    let roundId := d.2.2.1
    let accountQueuedBefore := d.2.2.2.1
    let accountQueuedNow := d.2.2.2.2.1
    let vaultQueuedNow := d.2.2.2.2.2
    let r := call S
      (Call.WithdrawalQueuedRevertIndex lpAddress event.VaultAddress roundId bps
        accountQueuedBefore accountQueuedNow vaultQueuedNow event.BlockNumber) w
    finish r.1 r.2
  else if event.EventName = "OptionRoundDeployed" then
    match junoEvent.Data[2]? with
    | none => (Result.panic, w)
    | some felt =>
      let roundAddress := A.FeltToHexString felt
      let r := call S (Call.DeleteOptionRound roundAddress) w
      finish r.1 r.2
  else if event.EventName = "AuctionStarted" then
    let roundAddress := (A.AuctionStarted junoEvent).2.2
    let l := lookupRound S roundAddress w
    match l.1 with
    | Except.error errInner => (Result.error errInner, l.2)
    | Except.ok prevStateOptionRound =>
      let r := call S
        (Call.AuctionStartedRevert prevStateOptionRound.VaultAddress roundAddress
          event.BlockNumber) l.2
      let _errInner := r.1
      finish err r.2
  else if event.EventName = "AuctionEnded" then
    let roundAddress := (A.AuctionEnded junoEvent).2.2.2.2.2
    let l := lookupRound S roundAddress w
    match l.1 with
    | Except.error errInner => (Result.error errInner, l.2)
    | Except.ok prevStateOptionRound =>
      let r := call S
        (Call.AuctionEndedRevert prevStateOptionRound.VaultAddress roundAddress
          event.BlockNumber) l.2
      let _errInner := r.1
      finish err r.2
  else if event.EventName = "OptionRoundSettled" then
    let roundAddress := (A.OptionRoundSettled junoEvent).2.2
    let l := lookupRound S roundAddress w
    match l.1 with
    | Except.error errInner => (Result.error errInner, l.2)
    | Except.ok prevStateOptionRound =>
      let r := call S
        (Call.RoundSettledRevert prevStateOptionRound.VaultAddress roundAddress
          event.BlockNumber) l.2
      let _errInner := r.1
      finish err r.2
  else if event.EventName = "BidPlaced" then
    let bid := (A.BidPlaced junoEvent).1
    let r := call S (Call.BidPlacedRevert bid.BidID bid.RoundAddress) w
    finish r.1 r.2
  else if event.EventName = "BidUpdated" then
    let d := A.BidUpdated junoEvent
    let bidId := d.1
    let amount := d.2.1
    let treeNonceOld := d.2.2.1
    let roundAddress := d.2.2.2.2
    let r := call S (Call.BidUpdatedRevert bidId roundAddress amount treeNonceOld) w
    finish r.1 r.2
  else if event.EventName = "OptionsMinted" then
    let d := A.OptionsMinted junoEvent
    let buyerAddress := d.1
    let roundAddress := d.2.2
    let r := call S
      (Call.UpdateOptionBuyerFields buyerAddress roundAddress [("has_minted", false)]) w
    finish r.1 r.2
  else if event.EventName = "OptionsExercised" then
    let d := A.OptionsExercised junoEvent
    let buyerAddress := d.1
    let mintableOptionsExercised := d.2.2.1
    let roundAddress := d.2.2.2.2
    let zero : BigInt := 0
    if mintableOptionsExercised > zero then
      let r := call S
        (Call.UpdateOptionBuyerFields buyerAddress roundAddress [("has_minted", false)]) w
      finish r.1 r.2
    else
      finish err w
  else if event.EventName = "UnusedBidsRefunded" then
    let d := A.UnusedBidsRefunded junoEvent
    let buyerAddress := d.1
    let roundAddress := d.2.2
    let r := call S
      (Call.UpdateOptionBuyerFields buyerAddress roundAddress [("has_refunded", false)]) w
    finish r.1 r.2
  else
    finish err w

/-- The function `processVaultEvent` (lines 192-332).  In the cases
AuctionEnded and OptionRoundSettled the errors of the lookup and of the
mutation are returned from inside the case clause. -/
def processVaultEvent (A : Adaptors) (S : Store σ) (event : Event) (w : World σ) :
    Result × World σ :=
  let err : Option Err := none
  let junoEvent := A.GetJunoEvent event
  if event.EventName = "Deposit" then
    let d := A.DepositOrWithdraw junoEvent
    let r := call S
      (Call.DepositIndex event.VaultAddress d.1 d.2.1 d.2.2 event.BlockNumber) w
    finish r.1 r.2
  else if event.EventName = "Withdrawal" then
    let d := A.DepositOrWithdraw junoEvent
    let r := call S
      (Call.WithdrawIndex event.VaultAddress d.1 d.2.1 d.2.2 event.BlockNumber) w
    finish r.1 r.2
  else if event.EventName = "WithdrawalQueued" then
    let d := A.WithdrawalQueued junoEvent
    let lpAddress := d.1
    let bps := d.2.1
    let roundId := d.2.2.1
    let accountQueuedBefore := d.2.2.2.1
    let accountQueuedNow := d.2.2.2.2.1
    let vaultQueuedNow := d.2.2.2.2.2
    let r := call S
      (Call.WithdrawalQueuedIndex lpAddress event.VaultAddress roundId bps
        accountQueuedBefore accountQueuedNow vaultQueuedNow) w
    finish r.1 r.2
  else if event.EventName = "StashWithdrawn" then
    let d := A.StashWithdrawn junoEvent
    let r := call S
      (Call.StashWithdrawnIndex event.VaultAddress d.1 d.2.1 d.2.2 event.BlockNumber) w
    finish r.1 r.2
  else if event.EventName = "OptionRoundDeployed" then
    let optionRound := A.RoundDeployed junoEvent
    let optionRound := { optionRound with DeploymentDate := event.Timestamp }
    let r := call S (Call.RoundDeployedIndex optionRound) w
    finish r.1 r.2
  else if event.EventName = "PricingDataSet" then
    let d := A.PricingDataSet junoEvent
    let strikePrice := d.1
    let capLevel := d.2.1
    let reservePrice := d.2.2.1
    let roundAddress := d.2.2.2
    let r := call S (Call.PricingDataSetIndex roundAddress strikePrice capLevel reservePrice) w
    finish r.1 r.2
  else if event.EventName = "AuctionStarted" then
    let d := A.AuctionStarted junoEvent
    let availableOptions := d.1
    let startingLiquidity := d.2.1
    let roundAddress := d.2.2
    let r := call S
      (Call.AuctionStartedIndex event.VaultAddress roundAddress event.BlockNumber
        availableOptions startingLiquidity) w
    finish r.1 r.2
  else if event.EventName = "AuctionEnded" then
    let d := A.AuctionEnded junoEvent
    let optionsSold := d.1
    let clearingPrice := d.2.1
    let unsoldLiquidity := d.2.2.1
    let clearingNonce := d.2.2.2.1
    let premiums := d.2.2.2.2.1
    let roundAddress := d.2.2.2.2.2
    let l := lookupRound S roundAddress w
    match l.1 with
    | Except.error errInner => (Result.error errInner, l.2)
    | Except.ok prevStateOptionRound =>
      let r := call S
        (Call.AuctionEndedIndex prevStateOptionRound roundAddress event.BlockNumber
          clearingNonce optionsSold clearingPrice premiums unsoldLiquidity) l.2
      match r.1 with
      | some errIf => (Result.error errIf, r.2)
      | none => finish err r.2
  else if event.EventName = "OptionRoundSettled" then
    let d := A.OptionRoundSettled junoEvent
    let settlementPrice := d.1
    let payoutPerOption := d.2.1
    let roundAddress := d.2.2
    let l := lookupRound S roundAddress w
    match l.1 with
    | Except.error errInner => (Result.error errInner, l.2)
    | Except.ok prevStateOptionRound =>
      let r := call S
        (Call.RoundSettledIndex prevStateOptionRound roundAddress event.BlockNumber
          settlementPrice prevStateOptionRound.OptionsSold payoutPerOption) l.2
      match r.1 with
      | some errIf => (Result.error errIf, r.2)
      | none => finish err r.2
  else if event.EventName = "BidPlaced" then
    let d := A.BidPlaced junoEvent
    let r := call S (Call.BidPlacedIndex d.1 d.2) w
    finish r.1 r.2
  else if event.EventName = "BidUpdated" then
    let d := A.BidUpdated junoEvent
    let bidId := d.1
    let price := d.2.1
    let treeNonceNew := d.2.2.2.1
    let roundAddress := d.2.2.2.2
    let r := call S (Call.BidUpdatedIndex roundAddress bidId price treeNonceNew) w
    finish r.1 r.2
  else if event.EventName = "OptionsMinted" then
    let d := A.OptionsMinted junoEvent
    let buyerAddress := d.1
    let roundAddress := d.2.2
    let r := call S
      (Call.UpdateOptionBuyerFields buyerAddress roundAddress [("has_minted", true)]) w
    finish r.1 r.2
  else if event.EventName = "OptionsExercised" then
    let d := A.OptionsExercised junoEvent
    let buyerAddress := d.1
    let roundAddress := d.2.2.2.2
    let r := call S
      (Call.UpdateOptionBuyerFields buyerAddress roundAddress [("has_minted", true)]) w
    finish r.1 r.2
  else if event.EventName = "UnusedBidsRefunded" then
    let d := A.UnusedBidsRefunded junoEvent
    let buyerAddress := d.1
    let roundAddress := d.2.2
    let r := call S
      (Call.UpdateOptionBuyerFields buyerAddress roundAddress [("has_refunded", true)]) w
    finish r.1 r.2
  else
    finish err w

/-- The struct `blockEventData` (lines 13-15). -/
structure blockEventData where
  BlockNumber : Nat
  deriving DecidableEq, Repr

/-- A notification delivered by `WaitForNotification`. -/
structure Notification where
  Channel : String
  Payload : String
  deriving DecidableEq, Repr

/-- How a run of `Listener` ends: `log.Fatal`, a `return`, a panic, or never
(it is blocked in `WaitForNotification` when the notifications given to the
model are used up). -/
inductive Exit where
  | fatal (e : Err)
  | returned
  | panicked
  | waiting
  deriving DecidableEq, Repr

/-- The loop `for _, event := range events` of lines 53-60 and 77-84; the two
copies differ in the handler they call.  The result is `none` when the loop
runs to its end, and the way `Listener` ends otherwise. -/
def eventLoop (S : Store σ) (handler : Event → World σ → Result × World σ) :
    List Event → World σ → Option Exit × World σ
  | [], w => (none, w)
  | event :: rest, w =>
    match (handler event w).1 with
    | Result.nil => eventLoop S handler rest (handler event w).2
    | Result.error _ => (some Exit.returned, (call S Call.RollbackTx (handler event w).2).2)
    | Result.panic => (some Exit.panicked, (handler event w).2)

/-- Lines 52-61 and 76-85: `BeginTx`, the loop over the events, `CommitTx`. -/
def runBatch (S : Store σ) (handler : Event → World σ → Result × World σ)
    (events : List Event) (w : World σ) : Option Exit × World σ :=
  let w1 := (call S Call.BeginTx w).2
  let r := eventLoop S handler events w1
  match r.1 with
  | some x => (some x, r.2)
  | none => (none, (call S Call.CommitTx r.2).2)

/-- Lines 40-61 and 64-85: what follows the `case` label in both cases of the
switch on the channel.  `Unmarshal` is `json.Unmarshal` into a
`blockEventData`. -/
def processNotification (S : Store σ) (Unmarshal : String → Except Err blockEventData)
    (handler : Event → World σ → Result × World σ) (notification : Notification)
    (w : World σ) : Option Exit × World σ :=
  match Unmarshal notification.Payload with
  | Except.error _ => (some Exit.returned, w)
  | Except.ok updatedData =>
    let f := fetchEvents S updatedData.BlockNumber w
    match f.1 with
    | Except.error _ => (some Exit.returned, f.2)
    | Except.ok events => runBatch S handler events f.2

/-- The body of the `for` loop of `Listener` after a notification has arrived
(lines 37-86): the switch on `notification.Channel`. -/
def handleNotification (A : Adaptors) (S : Store σ)
    (Unmarshal : String → Except Err blockEventData) (notification : Notification)
    (w : World σ) : Option Exit × World σ :=
  if notification.Channel = "new_block" then
    processNotification S Unmarshal (processVaultEvent A S) notification w
  else if notification.Channel = "revert_block" then
    processNotification S Unmarshal (revertVaultEvent A S) notification w
  else
    (none, w)

/-- The `for` loop of `Listener` (lines 30-87) over the successive results of
`WaitForNotification`. -/
def listenLoop (A : Adaptors) (S : Store σ) (Unmarshal : String → Except Err blockEventData) :
    List (Except Err Notification) → World σ → Exit × World σ
  | [], w => (Exit.waiting, w)
  | Except.error e :: _, w => (Exit.fatal e, w)
  | Except.ok notification :: rest, w =>
    match (handleNotification A S Unmarshal notification w).1 with
    | some x => (x, (handleNotification A S Unmarshal notification w).2)
    | none => listenLoop A S Unmarshal rest (handleNotification A S Unmarshal notification w).2

/-- The function `Listener` (lines 17-88). -/
def Listener (A : Adaptors) (S : Store σ) (Unmarshal : String → Except Err blockEventData)
    (notifications : List (Except Err Notification)) (w : World σ) : Exit × World σ :=
  let r1 := call S (Call.Exec "LISTEN new_event") w
  match r1.1 with
  | some e => (Exit.fatal e, r1.2)
  | none =>
    let r2 := call S (Call.Exec "LISTEN revert_block") r1.2
    match r2.1 with
    | some e => (Exit.fatal e, r2.2)
    | none => listenLoop A S Unmarshal notifications r2.2

/-! ## Notions used to state the properties -/

/-- The two passes of the listener. -/
inductive Mode where
  | apply
  | revert
  deriving DecidableEq, Repr

/-- The handler `Listener` calls in each pass. -/
def handlerOf (A : Adaptors) (S : Store σ) : Mode → Event → World σ → Result × World σ
  | Mode.apply => processVaultEvent A S
  | Mode.revert => revertVaultEvent A S

/-- The calls issued between two worlds of one run. -/
def issued (w w1 : World σ) : List Call :=
  w1.log.drop w.log.length

/-- Handle the events in list order as long as each returns nil: the world
reached when all do, `none` when one returns an error or panics. -/
def allNil (handler : Event → World σ → Result × World σ) :
    List Event → World σ → Option (World σ)
  | [], w => some w
  | event :: rest, w =>
    match (handler event w).1 with
    | Result.nil => allNil handler rest (handler event w).2
    | _ => none

/-- A store whose rollback restores the state at `BeginTx`: `view` is the
materialized state, `saved` the state a rollback returns to. -/
structure RollbackRestores {V : Type} (S : Store σ) (view saved : σ → V) : Prop where
  begin_saves : ∀ s, saved (S.exec Call.BeginTx s).2 = view s
  exec_keeps : ∀ c s, c.isTx = false → saved (S.exec c s).2 = saved s
  lookup_keeps : ∀ a s, saved (S.GetOptionRoundByAddress a s).2 = saved s
  rollback_restores : ∀ s, view (S.exec Call.RollbackTx s).2 = saved s

/-- A world reached from another by calls that are not transaction calls and
by lookups of option rounds. -/
inductive Steps (S : Store σ) : World σ → World σ → Prop where
  | refl (w : World σ) : Steps S w w
  | byCall (c : Call) {w w1 : World σ} :
      c.isTx = false → Steps S w w1 → Steps S w (call S c w1).2
  | byLookup (a : String) {w w1 : World σ} :
      Steps S w w1 → Steps S w (lookupRound S a w1).2

/-- The round address `revertVaultEvent` decodes from an event of one of the
three kinds whose revert looks the round up. -/
def lookupAddress (A : Adaptors) (event : Event) : String :=
  if event.EventName = "AuctionStarted" then (A.AuctionStarted (A.GetJunoEvent event)).2.2
  else if event.EventName = "AuctionEnded" then
    (A.AuctionEnded (A.GetJunoEvent event)).2.2.2.2.2
  else (A.OptionRoundSettled (A.GetJunoEvent event)).2.2

/-- The revert mutation of an event of one of the three kinds whose revert
looks the round up, for a given vault and round address. -/
def revertMutation (event : Event) (vaultAddress roundAddress : String) : Call :=
  if event.EventName = "AuctionStarted" then
    Call.AuctionStartedRevert vaultAddress roundAddress event.BlockNumber
  else if event.EventName = "AuctionEnded" then
    Call.AuctionEndedRevert vaultAddress roundAddress event.BlockNumber
  else Call.RoundSettledRevert vaultAddress roundAddress event.BlockNumber

/-- The channel name that the switch of `Listener` matches for each pass. -/
def channelOf : Mode → String
  | Mode.apply => "new_block"
  | Mode.revert => "revert_block"

/-- The labels of the switch of `processVaultEvent`. -/
def processKinds : List String :=
  ["Deposit", "Withdrawal", "WithdrawalQueued", "StashWithdrawn", "OptionRoundDeployed",
   "PricingDataSet", "AuctionStarted", "AuctionEnded", "OptionRoundSettled", "BidPlaced",
   "BidUpdated", "OptionsMinted", "OptionsExercised", "UnusedBidsRefunded"]

/-- The labels of the switch of `revertVaultEvent`. -/
def revertKinds : List String :=
  ["ContractDeployed", "Deposit", "Withdraw", "StashWithdrawn", "WithdrawalQueued",
   "OptionRoundDeployed", "AuctionStarted", "AuctionEnded", "OptionRoundSettled", "BidPlaced",
   "BidUpdated", "OptionsMinted", "OptionsExercised", "UnusedBidsRefunded"]

/-- The labels of the switch of the handler of each pass. -/
def kindsOf : Mode → List String
  | Mode.apply => processKinds
  | Mode.revert => revertKinds

/-! ## Inputs on which the code is evaluated -/

/-- Decoders for evaluating the code: addresses and numbers are read off the
data of the event at fixed positions. -/
def sampleAdaptors : Adaptors where
  GetJunoEvent e := ⟨e.Keys, e.Data⟩
  FeltToHexString f := "0x" ++ String.mk (Nat.toDigits 16 f)
  DepositOrWithdraw j := ("0x" ++ String.mk (Nat.toDigits 16 (j.Data.getD 0 0)),
    (j.Data.getD 1 0 : Int), (j.Data.getD 2 0 : Int))
  StashWithdrawn j := ("0x" ++ String.mk (Nat.toDigits 16 (j.Data.getD 0 0)),
    (j.Data.getD 1 0 : Int), (j.Data.getD 2 0 : Int))
  WithdrawalQueued j := ("0x" ++ String.mk (Nat.toDigits 16 (j.Data.getD 0 0)),
    (j.Data.getD 1 0 : Int), j.Data.getD 2 0, (j.Data.getD 3 0 : Int),
    (j.Data.getD 4 0 : Int), (j.Data.getD 5 0 : Int))
  RoundDeployed j := ⟨"0x" ++ String.mk (Nat.toDigits 16 (j.Data.getD 2 0)),
    "0x" ++ String.mk (Nat.toDigits 16 (j.Data.getD 0 0)), 0, 0⟩
  PricingDataSet j := ((j.Data.getD 0 0 : Int), (j.Data.getD 1 0 : Int),
    (j.Data.getD 2 0 : Int), "0x" ++ String.mk (Nat.toDigits 16 (j.Data.getD 3 0)))
  AuctionStarted j := ((j.Data.getD 0 0 : Int), (j.Data.getD 1 0 : Int),
    "0x" ++ String.mk (Nat.toDigits 16 (j.Data.getD 2 0)))
  AuctionEnded j := ((j.Data.getD 0 0 : Int), (j.Data.getD 1 0 : Int),
    (j.Data.getD 2 0 : Int), j.Data.getD 3 0, (j.Data.getD 4 0 : Int),
    "0x" ++ String.mk (Nat.toDigits 16 (j.Data.getD 5 0)))
  OptionRoundSettled j := ((j.Data.getD 0 0 : Int), (j.Data.getD 1 0 : Int),
    "0x" ++ String.mk (Nat.toDigits 16 (j.Data.getD 2 0)))
  BidPlaced j :=
    (⟨"0x" ++ String.mk (Nat.toDigits 16 (j.Data.getD 0 0)),
      "0x" ++ String.mk (Nat.toDigits 16 (j.Data.getD 4 0)),
      "0x" ++ String.mk (Nat.toDigits 16 (j.Data.getD 1 0)),
      (j.Data.getD 2 0 : Int), (j.Data.getD 3 0 : Int), j.Data.getD 5 0⟩,
     ⟨"0x" ++ String.mk (Nat.toDigits 16 (j.Data.getD 1 0)),
      "0x" ++ String.mk (Nat.toDigits 16 (j.Data.getD 4 0)), false, false⟩)
  BidUpdated j := ("0x" ++ String.mk (Nat.toDigits 16 (j.Data.getD 0 0)),
    (j.Data.getD 1 0 : Int), j.Data.getD 2 0, j.Data.getD 3 0,
    "0x" ++ String.mk (Nat.toDigits 16 (j.Data.getD 4 0)))
  OptionsMinted j := ("0x" ++ String.mk (Nat.toDigits 16 (j.Data.getD 0 0)),
    (j.Data.getD 1 0 : Int), "0x" ++ String.mk (Nat.toDigits 16 (j.Data.getD 2 0)))
  OptionsExercised j := ("0x" ++ String.mk (Nat.toDigits 16 (j.Data.getD 0 0)),
    (j.Data.getD 1 0 : Int), (j.Data.getD 2 0 : Int) - (j.Data.getD 3 0 : Int),
    (j.Data.getD 3 0 : Int), "0x" ++ String.mk (Nat.toDigits 16 (j.Data.getD 4 0)))
  UnusedBidsRefunded j := ("0x" ++ String.mk (Nat.toDigits 16 (j.Data.getD 0 0)),
    (j.Data.getD 1 0 : Int), "0x" ++ String.mk (Nat.toDigits 16 (j.Data.getD 2 0)))

/-- A store for evaluating the code.  Its state is the pair of the accepted
mutations, oldest first, and the copy of them taken at `BeginTx`; `reject`
tells which mutations fail, `rounds` is the table of option rounds and
`blocks` the table of events by block. -/
def sampleStore (reject : Call → Bool) (rounds : List OptionRound)
    (blocks : Nat → Option (List Event)) : Store (List Call × List Call) where
  exec c s :=
    match c with
    | Call.BeginTx => (none, (s.1, s.1))
    | Call.CommitTx => (none, (s.1, s.1))
    | Call.RollbackTx => (none, (s.2, s.2))
    | Call.Exec _ => (none, s)
    | c => if reject c then (some "rejected", s) else (none, (s.1 ++ [c], s.2))
  GetOptionRoundByAddress a s :=
    match rounds.find? (fun r => r.Address == a) with
    | some r => (Except.ok r, s)
    | none => (Except.error "record not found", s)
  GetEventsByBlockNumber n s :=
    match blocks n with
    | some es => (Except.ok es, s)
    | none => (Except.error "no events", s)

/-- A decoder of payloads for evaluating the code: it accepts the payloads of
blocks 100, 101 and 102. -/
def sampleUnmarshal (payload : String) : Except Err blockEventData :=
  if payload = "\x7b\"blockNumber\":100\x7d" then Except.ok ⟨100⟩
  else if payload = "\x7b\"blockNumber\":101\x7d" then Except.ok ⟨101⟩
  else if payload = "\x7b\"blockNumber\":102\x7d" then Except.ok ⟨102⟩
  else Except.error "invalid character"

/-- An event of the given kind with the given data, in block 100 of vault
`0xv`. -/
def sampleEvent (kind : String) (data : List Felt) : Event :=
  ⟨100, kind, "0xv", 1700000000, [], data⟩

/-- A store that accepts every mutation. -/
def acceptAll : Call → Bool :=
  fun _ => false

/-- A store that rejects `PricingDataSetIndex`. -/
def rejectPricing : Call → Bool
  | Call.PricingDataSetIndex _ _ _ _ => true
  | _ => false

/-- A store that rejects the three revert mutations that follow a lookup. -/
def rejectRoundReverts : Call → Bool
  | Call.AuctionStartedRevert _ _ _ => true
  | Call.AuctionEndedRevert _ _ _ => true
  | Call.RoundSettledRevert _ _ _ => true
  | _ => false

/-- A deposit of liquidity provider `0x1`. -/
def depositEvent : Event :=
  sampleEvent "Deposit" [1, 10, 20]

/-- A bid `0x7` of buyer `0x1` in round `0x2`. -/
def bidPlacedEvent : Event :=
  sampleEvent "BidPlaced" [7, 1, 5, 3, 2, 1]

/-- Pricing data for round `0x2`. -/
def pricingEvent : Event :=
  sampleEvent "PricingDataSet" [1, 2, 3, 2]

/-- The start of the auction of round `0x2`. -/
def auctionStartedEvent : Event :=
  sampleEvent "AuctionStarted" [1, 2, 2]

/-- The end of the auction of round `0x2`. -/
def auctionEndedEvent : Event :=
  sampleEvent "AuctionEnded" [1, 2, 3, 4, 5, 2]

/-- The settlement of round `0x2`. -/
def roundSettledEvent : Event :=
  sampleEvent "OptionRoundSettled" [1, 2, 2]

/-- The start of the auction of round `0x9`, which is not in the table of
rounds. -/
def orphanAuctionStartedEvent : Event :=
  sampleEvent "AuctionStarted" [1, 2, 9]

/-- An exercise by buyer `0x1` in round `0x2` with mintable quantity 3. -/
def exercisedEvent : Event :=
  sampleEvent "OptionsExercised" [1, 5, 3, 0, 2]

/-- An exercise by buyer `0x1` in round `0x2` with mintable quantity 0. -/
def exercisedNothingEvent : Event :=
  sampleEvent "OptionsExercised" [1, 5, 4, 4, 2]

/-- An event of a kind that neither switch lists. -/
def unlistedEvent : Event :=
  sampleEvent "ContractUpgraded" [1, 2, 3]

/-- The payload of a notification for block 100. -/
def payload100 : String :=
  "\x7b\"blockNumber\":100\x7d"

/-- The payload of a notification for block 101. -/
def payload101 : String :=
  "\x7b\"blockNumber\":101\x7d"

/-- The payload of a notification for block 102. -/
def payload102 : String :=
  "\x7b\"blockNumber\":102\x7d"

/-- The table of events by block: block 100 holds a deposit, a bid and pricing
data, block 101 a deposit and a bid; no other block has events. -/
def sampleBlocks : Nat → Option (List Event) :=
  fun n =>
    if n = 100 then some [depositEvent, bidPlacedEvent, pricingEvent]
    else if n = 101 then some [depositEvent, bidPlacedEvent]
    else none

/-- The option round `0x2` of vault `0xv`. -/
def sampleRounds : List OptionRound :=
  [⟨"0x2", "0xv", 0, 0⟩]

/-- The empty world over the sample store. -/
def emptyWorld : World (List Call × List Call) :=
  ⟨([], []), []⟩

/-! ## The handlers only issue mutations and lookups -/

@[simp] theorem finish_snd (err : Option Err) (w : World σ) : (finish err w).2 = w := by
  cases err <;> rfl

@[simp] theorem finish_none (w : World σ) : finish none w = (Result.nil, w) := rfl

theorem finish_fst_nil (err : Option Err) (w : World σ) :
    (finish err w).1 = Result.nil ↔ err = none := by
  cases err <;> simp [finish]

@[simp] theorem call_log (S : Store σ) (c : Call) (w : World σ) :
    (call S c w).2.log = w.log ++ [c] := rfl

@[simp] theorem call_store (S : Store σ) (c : Call) (w : World σ) :
    (call S c w).2.store = (S.exec c w.store).2 := rfl

@[simp] theorem call_fst (S : Store σ) (c : Call) (w : World σ) :
    (call S c w).1 = (S.exec c w.store).1 := rfl

@[simp] theorem lookupRound_log (S : Store σ) (a : String) (w : World σ) :
    (lookupRound S a w).2.log = w.log ++ [Call.GetOptionRoundByAddress a] := rfl

@[simp] theorem lookupRound_store (S : Store σ) (a : String) (w : World σ) :
    (lookupRound S a w).2.store = (S.GetOptionRoundByAddress a w.store).2 := rfl

@[simp] theorem lookupRound_fst (S : Store σ) (a : String) (w : World σ) :
    (lookupRound S a w).1 = (S.GetOptionRoundByAddress a w.store).1 := rfl

theorem issued_append (w w1 : World σ) (cs : List Call) (h : w1.log = w.log ++ cs) :
    issued w w1 = cs := by
  simp [issued, h]

theorem steps_one (S : Store σ) (c : Call) (w : World σ) (h : c.isTx = false) :
    Steps S w (call S c w).2 :=
  Steps.byCall c h (Steps.refl w)

theorem steps_look (S : Store σ) (a : String) (w : World σ) :
    Steps S w (lookupRound S a w).2 :=
  Steps.byLookup a (Steps.refl w)

theorem steps_lookThenCall (S : Store σ) (a : String) (c : Call) (w : World σ)
    (h : c.isTx = false) : Steps S w (call S c (lookupRound S a w).2).2 :=
  Steps.byCall c h (steps_look S a w)

theorem steps_trans {S : Store σ} {w w1 w2 : World σ} (h1 : Steps S w w1)
    (h2 : Steps S w1 w2) : Steps S w w2 := by
  induction h2 with
  | refl => exact h1
  | byCall c h _ ih => exact Steps.byCall c h (ih h1)
  | byLookup a _ ih => exact Steps.byLookup a (ih h1)

theorem steps_log {S : Store σ} {w w1 : World σ} (h : Steps S w w1) :
    ∃ cs, w1.log = w.log ++ cs ∧ ∀ c ∈ cs, c.isTx = false := by
  induction h with
  | refl => exact ⟨[], by simp, by simp⟩
  | byCall c hc _ ih =>
    obtain ⟨cs, h1, h2⟩ := ih
    refine ⟨cs ++ [c], by simp [h1], ?_⟩
    intro d hd
    rcases List.mem_append.mp hd with hd | hd
    · exact h2 d hd
    · simp at hd; subst hd; exact hc
  | byLookup a _ ih =>
    obtain ⟨cs, h1, h2⟩ := ih
    refine ⟨cs ++ [Call.GetOptionRoundByAddress a], by simp [h1], ?_⟩
    intro d hd
    rcases List.mem_append.mp hd with hd | hd
    · exact h2 d hd
    · simp at hd; subst hd; rfl

theorem steps_saved {V : Type} {S : Store σ} {view saved : σ → V}
    (hS : RollbackRestores S view saved) {w w1 : World σ} (h : Steps S w w1) :
    saved w1.store = saved w.store := by
  induction h with
  | refl => rfl
  | byCall c hc _ ih => simpa [hS.exec_keeps c _ hc] using ih
  | byLookup a _ ih => simpa [hS.lookup_keeps a _] using ih

theorem ite_rec {α : Type} (P : α → Prop) (c : Prop) [Decidable c] (a b : α)
    (ha : c → P a) (hb : ¬ c → P b) : P (if c then a else b) := by
  by_cases h : c
  · rw [if_pos h]; exact ha h
  · rw [if_neg h]; exact hb h

theorem revertVaultEvent_steps (A : Adaptors) (S : Store σ) (event : Event) (w : World σ) :
    Steps S w (revertVaultEvent A S event w).2 := by
  unfold revertVaultEvent
  repeat' refine ite_rec (fun r : Result × World σ => Steps S w r.2) _ _ _
            (fun _ => ?_) (fun _ => ?_)
  all_goals beta_reduce
  all_goals try simp only [finish_snd]
  all_goals try split
  all_goals try simp only [finish_snd]
  all_goals first
    | exact Steps.refl _
    | exact steps_look S _ w
    | (refine steps_one S _ w ?_; rfl)
    | (refine steps_lookThenCall S _ _ w ?_; rfl)

theorem processVaultEvent_steps (A : Adaptors) (S : Store σ) (event : Event) (w : World σ) :
    Steps S w (processVaultEvent A S event w).2 := by
  unfold processVaultEvent
  repeat' refine ite_rec (fun r : Result × World σ => Steps S w r.2) _ _ _
            (fun _ => ?_) (fun _ => ?_)
  all_goals beta_reduce
  all_goals try simp only [finish_snd]
  all_goals try split
  all_goals try simp only [finish_snd]
  all_goals try split
  all_goals try simp only [finish_snd]
  all_goals first
    | exact Steps.refl _
    | exact steps_look S _ w
    | (refine steps_one S _ w ?_; rfl)
    | (refine steps_lookThenCall S _ _ w ?_; rfl)

theorem handlerOf_steps (A : Adaptors) (S : Store σ) (m : Mode) (event : Event) (w : World σ) :
    Steps S w (handlerOf A S m event w).2 := by
  cases m
  · exact processVaultEvent_steps A S event w
  · exact revertVaultEvent_steps A S event w

/-! ## Batches -/

theorem allNil_steps {S : Store σ} {handler : Event → World σ → Result × World σ}
    (hh : ∀ e w, Steps S w (handler e w).2) (events : List Event) :
    ∀ w w1, allNil handler events w = some w1 → Steps S w w1 := by
  induction events with
  | nil =>
    intro w w1 h
    simp only [allNil, Option.some.injEq] at h
    subst h
    exact Steps.refl w
  | cons e rest ih =>
    intro w w1 h
    cases hr : (handler e w).1 with
    | nil =>
      simp only [allNil, hr] at h
      exact steps_trans (hh e w) (ih _ _ h)
    | error err => simp [allNil, hr] at h
    | panic => simp [allNil, hr] at h

theorem eventLoop_allNil (S : Store σ) (handler : Event → World σ → Result × World σ)
    (events : List Event) :
    ∀ w w1, allNil handler events w = some w1 → eventLoop S handler events w = (none, w1) := by
  induction events with
  | nil =>
    intro w w1 h
    simp only [allNil, Option.some.injEq] at h
    subst h
    rfl
  | cons e rest ih =>
    intro w w1 h
    cases hr : (handler e w).1 with
    | nil =>
      simp only [allNil, hr] at h
      simp only [eventLoop, hr]
      exact ih _ _ h
    | error err => simp [allNil, hr] at h
    | panic => simp [allNil, hr] at h

theorem eventLoop_error (S : Store σ) (handler : Event → World σ → Result × World σ)
    (pre : List Event) (e : Event) (post : List Event) (err : Err) :
    ∀ w w1, allNil handler pre w = some w1 → (handler e w1).1 = Result.error err →
      eventLoop S handler (pre ++ e :: post) w
        = (some Exit.returned, (call S Call.RollbackTx (handler e w1).2).2) := by
  induction pre with
  | nil =>
    intro w w1 h he
    simp only [allNil, Option.some.injEq] at h
    subst h
    simp only [List.nil_append, eventLoop, he]
  | cons a rest ih =>
    intro w w1 h he
    cases hr : (handler a w).1 with
    | nil =>
      simp only [allNil, hr] at h
      simp only [List.cons_append, eventLoop, hr]
      exact ih _ _ h he
    | error err => simp [allNil, hr] at h
    | panic => simp [allNil, hr] at h

theorem runBatch_error (S : Store σ) (handler : Event → World σ → Result × World σ)
    (pre : List Event) (e : Event) (post : List Event) (err : Err) (w w1 : World σ)
    (h : allNil handler pre (call S Call.BeginTx w).2 = some w1)
    (he : (handler e w1).1 = Result.error err) :
    runBatch S handler (pre ++ e :: post) w
      = (some Exit.returned, (call S Call.RollbackTx (handler e w1).2).2) := by
  simp only [runBatch, eventLoop_error S handler pre e post err _ _ h he]

theorem runBatch_allNil (S : Store σ) (handler : Event → World σ → Result × World σ)
    (events : List Event) (w w1 : World σ)
    (h : allNil handler events (call S Call.BeginTx w).2 = some w1) :
    runBatch S handler events w = (none, (call S Call.CommitTx w1).2) := by
  simp only [runBatch, eventLoop_allNil S handler events _ _ h]

theorem batch_log {S : Store σ} {w w1 w2 : World σ} (h1 : Steps S (call S Call.BeginTx w).2 w1)
    (last : Call) (h2 : w2.log = w1.log ++ [last]) :
    ∃ cs, (∀ c ∈ cs, c.isTx = false) ∧ issued w w2 = Call.BeginTx :: cs ++ [last] := by
  obtain ⟨cs, hlog, hcs⟩ := steps_log h1
  refine ⟨cs, hcs, ?_⟩
  apply issued_append
  rw [h2, hlog]
  simp

theorem sampleStore_rollbackRestores (reject : Call → Bool) (rounds : List OptionRound)
    (blocks : Nat → Option (List Event)) :
    RollbackRestores (sampleStore reject rounds blocks) Prod.fst Prod.snd where
  begin_saves := fun _ => rfl
  exec_keeps := by
    intro c s hc
    cases c <;> first
      | (simp [Call.isTx] at hc; done)
      | rfl
      | (simp only [sampleStore]; split <;> rfl)
  lookup_keeps := by
    intro a s
    simp only [sampleStore]
    split <;> rfl
  rollback_restores := fun _ => rfl

/-- C1 (batch atomicity).  In both passes, for every list of events: the batch
issues `BeginTx` once and first; (i) when the events before `e` return nil in
list order and `e` returns an error, the batch ends with one `RollbackTx`,
issues no `CommitTx`, returns from `Listener`, and is the same whatever events
follow `e` (none of them is handled); (ii) when every event returns nil the
batch ends with one `CommitTx` and issues no `RollbackTx`; and over a store
whose rollback restores the state at `BeginTx`, a batch with a failing event
leaves the materialized state as it was before the batch. -/
theorem batch_atomicity (A : Adaptors) (S : Store σ) (m : Mode) (w : World σ) :
    (∀ pre e post w1 err,
        allNil (handlerOf A S m) pre (call S Call.BeginTx w).2 = some w1 →
        (handlerOf A S m e w1).1 = Result.error err →
        runBatch S (handlerOf A S m) (pre ++ e :: post) w
            = (some Exit.returned, (call S Call.RollbackTx (handlerOf A S m e w1).2).2)
          ∧ runBatch S (handlerOf A S m) (pre ++ e :: post) w
            = runBatch S (handlerOf A S m) (pre ++ [e]) w
          ∧ ∃ cs, (∀ c ∈ cs, c.isTx = false) ∧
              issued w (runBatch S (handlerOf A S m) (pre ++ e :: post) w).2
                = Call.BeginTx :: cs ++ [Call.RollbackTx])
    ∧ (∀ events w1,
        allNil (handlerOf A S m) events (call S Call.BeginTx w).2 = some w1 →
        runBatch S (handlerOf A S m) events w = (none, (call S Call.CommitTx w1).2)
          ∧ ∃ cs, (∀ c ∈ cs, c.isTx = false) ∧
              issued w (runBatch S (handlerOf A S m) events w).2
                = Call.BeginTx :: cs ++ [Call.CommitTx])
    ∧ (∀ (V : Type) (view saved : σ → V), RollbackRestores S view saved →
        ∀ pre e post w1 err,
          allNil (handlerOf A S m) pre (call S Call.BeginTx w).2 = some w1 →
          (handlerOf A S m e w1).1 = Result.error err →
          view (runBatch S (handlerOf A S m) (pre ++ e :: post) w).2.store = view w.store) := by
  have hh : ∀ e w, Steps S w (handlerOf A S m e w).2 := handlerOf_steps A S m
  refine ⟨?_, ?_, ?_⟩
  · intro pre e post w1 err h he
    have hrun := runBatch_error S (handlerOf A S m) pre e post err w w1 h he
    refine ⟨hrun, ?_, ?_⟩
    · rw [hrun, runBatch_error S (handlerOf A S m) pre e [] err w w1 h he]
    · rw [hrun]
      exact batch_log (steps_trans (allNil_steps hh pre _ _ h) (hh e w1)) Call.RollbackTx rfl
  · intro events w1 h
    have hrun := runBatch_allNil S (handlerOf A S m) events w w1 h
    refine ⟨hrun, ?_⟩
    rw [hrun]
    exact batch_log (allNil_steps hh events _ _ h) Call.CommitTx rfl
  · intro V view saved hS pre e post w1 err h he
    rw [runBatch_error S (handlerOf A S m) pre e post err w w1 h he]
    have hst := steps_saved hS (steps_trans (allNil_steps hh pre _ _ h) (hh e w1))
    simp only [call_store] at hst ⊢
    rw [hS.rollback_restores, hst, hS.begin_saves]

/-- C1 on block 100 of the sample store, where the deposit and the bid are
accepted and the pricing data is rejected: the batch is rolled back and the
accepted mutations are gone; without the pricing data it is committed. -/
theorem batch_atomicity_witness :
    (runBatch (sampleStore rejectPricing [] sampleBlocks)
        (handlerOf sampleAdaptors (sampleStore rejectPricing [] sampleBlocks) Mode.apply)
        ([depositEvent, bidPlacedEvent] ++ pricingEvent :: [depositEvent]) emptyWorld).1
      = some Exit.returned
    ∧ (runBatch (sampleStore rejectPricing [] sampleBlocks)
        (handlerOf sampleAdaptors (sampleStore rejectPricing [] sampleBlocks) Mode.apply)
        ([depositEvent, bidPlacedEvent] ++ pricingEvent :: [depositEvent]) emptyWorld).2.store.1
      = emptyWorld.store.1
    ∧ (runBatch (sampleStore rejectPricing [] sampleBlocks)
        (handlerOf sampleAdaptors (sampleStore rejectPricing [] sampleBlocks) Mode.apply)
        [depositEvent, bidPlacedEvent] emptyWorld).1 = none :=
  have h := batch_atomicity sampleAdaptors (sampleStore rejectPricing [] sampleBlocks)
    Mode.apply emptyWorld
  have h1 := h.1 [depositEvent, bidPlacedEvent] pricingEvent [depositEvent] _ "rejected"
    rfl rfl
  have h2 := h.2.1 [depositEvent, bidPlacedEvent] _ rfl
  have h3 := h.2.2 _ Prod.fst Prod.snd (sampleStore_rollbackRestores _ _ _)
    [depositEvent, bidPlacedEvent] pricingEvent [depositEvent] _ "rejected" rfl rfl
  ⟨congrArg Prod.fst h1.1, h3, congrArg Prod.fst h2.1⟩

/-! ## The reverter and the applier, kind by kind -/

theorem revert_lookup_kinds (A : Adaptors) (S : Store σ) (e : Event) (w : World σ)
    (hk : e.EventName = "AuctionStarted" ∨ e.EventName = "AuctionEnded" ∨
      e.EventName = "OptionRoundSettled") :
    revertVaultEvent A S e w =
      match (lookupRound S (lookupAddress A e) w).1 with
      | Except.error err => (Result.error err, (lookupRound S (lookupAddress A e) w).2)
      | Except.ok r =>
        (Result.nil, (call S (revertMutation e r.VaultAddress (lookupAddress A e))
          (lookupRound S (lookupAddress A e) w).2).2) := by
  rcases hk with hk | hk | hk <;>
    simp only [revertVaultEvent, lookupAddress, revertMutation, hk] <;>
    simp

/-- C2 fails on the code.  For AuctionStarted, AuctionEnded and
OptionRoundSettled, when the lookup of the round succeeds, `revertVaultEvent`
returns nil in the world reached by the revert mutation, whatever that mutation
returned: its error is assigned to the `err` of the case clause and the `err`
tested after the switch is still nil. -/
theorem revert_mutation_error_dropped (A : Adaptors) (S : Store σ) (e : Event) (w : World σ)
    (r : OptionRound)
    (hk : e.EventName = "AuctionStarted" ∨ e.EventName = "AuctionEnded" ∨
      e.EventName = "OptionRoundSettled")
    (hl : (lookupRound S (lookupAddress A e) w).1 = Except.ok r) :
    revertVaultEvent A S e w =
      (Result.nil, (call S (revertMutation e r.VaultAddress (lookupAddress A e))
        (lookupRound S (lookupAddress A e) w).2).2) := by
  rw [revert_lookup_kinds A S e w hk, hl]

/-- C2 at the failing input: the store knows round `0x2` and rejects the three
revert mutations; each of the three events is reverted with result nil, and a
revert batch holding the AuctionStarted event is committed. -/
theorem revert_mutation_error_dropped_witness :
    (call (sampleStore rejectRoundReverts sampleRounds sampleBlocks)
        (Call.AuctionStartedRevert "0xv" "0x2" 100) emptyWorld).1 = some "rejected"
    ∧ revertVaultEvent sampleAdaptors (sampleStore rejectRoundReverts sampleRounds sampleBlocks)
        auctionStartedEvent emptyWorld
      = (Result.nil, ⟨([], []), [Call.GetOptionRoundByAddress "0x2",
          Call.AuctionStartedRevert "0xv" "0x2" 100]⟩)
    ∧ (revertVaultEvent sampleAdaptors (sampleStore rejectRoundReverts sampleRounds sampleBlocks)
        auctionEndedEvent emptyWorld).1 = Result.nil
    ∧ (revertVaultEvent sampleAdaptors (sampleStore rejectRoundReverts sampleRounds sampleBlocks)
        roundSettledEvent emptyWorld).1 = Result.nil
    ∧ runBatch (sampleStore rejectRoundReverts sampleRounds sampleBlocks)
        (revertVaultEvent sampleAdaptors (sampleStore rejectRoundReverts sampleRounds sampleBlocks))
        [auctionStartedEvent] emptyWorld
      = (none, ⟨([], []), [Call.BeginTx, Call.GetOptionRoundByAddress "0x2",
          Call.AuctionStartedRevert "0xv" "0x2" 100, Call.CommitTx]⟩) :=
  ⟨rfl,
   revert_mutation_error_dropped sampleAdaptors
     (sampleStore rejectRoundReverts sampleRounds sampleBlocks) auctionStartedEvent emptyWorld
     ⟨"0x2", "0xv", 0, 0⟩ (Or.inl rfl) rfl,
   congrArg Prod.fst (revert_mutation_error_dropped sampleAdaptors
     (sampleStore rejectRoundReverts sampleRounds sampleBlocks) auctionEndedEvent emptyWorld
     ⟨"0x2", "0xv", 0, 0⟩ (Or.inr (Or.inl rfl)) rfl),
   congrArg Prod.fst (revert_mutation_error_dropped sampleAdaptors
     (sampleStore rejectRoundReverts sampleRounds sampleBlocks) roundSettledEvent emptyWorld
     ⟨"0x2", "0xv", 0, 0⟩ (Or.inr (Or.inr rfl)) rfl),
   rfl⟩

/-- C3 fails on the code.  The label of the reverter is "Withdraw", the kind the
applier handles through `WithdrawIndex` is "Withdrawal": for every event of
kind Withdrawal the applier issues `WithdrawIndex` and the reverter issues no
call and returns nil.  The compensating call is issued for the kinds Deposit,
StashWithdrawn and Withdraw. -/
theorem withdrawal_revert_is_noop (A : Adaptors) (S : Store σ) (e : Event) (w : World σ) :
    revertVaultEvent A S { e with EventName := "Withdrawal" } w = (Result.nil, w)
    ∧ issued w (processVaultEvent A S { e with EventName := "Withdrawal" } w).2
        = [Call.WithdrawIndex e.VaultAddress
            (A.DepositOrWithdraw (A.GetJunoEvent { e with EventName := "Withdrawal" })).1
            (A.DepositOrWithdraw (A.GetJunoEvent { e with EventName := "Withdrawal" })).2.1
            (A.DepositOrWithdraw (A.GetJunoEvent { e with EventName := "Withdrawal" })).2.2
            e.BlockNumber]
    ∧ issued w (revertVaultEvent A S { e with EventName := "Withdraw" } w).2
        = [Call.DepositOrWithdrawOrStashWithdrawRevert e.VaultAddress
            (A.DepositOrWithdraw (A.GetJunoEvent { e with EventName := "Withdraw" })).1
            e.BlockNumber]
    ∧ issued w (revertVaultEvent A S { e with EventName := "Deposit" } w).2
        = [Call.DepositOrWithdrawOrStashWithdrawRevert e.VaultAddress
            (A.DepositOrWithdraw (A.GetJunoEvent { e with EventName := "Deposit" })).1
            e.BlockNumber]
    ∧ issued w (revertVaultEvent A S { e with EventName := "StashWithdrawn" } w).2
        = [Call.DepositOrWithdrawOrStashWithdrawRevert e.VaultAddress
            (A.StashWithdrawn (A.GetJunoEvent { e with EventName := "StashWithdrawn" })).1
            e.BlockNumber] := by
  refine ⟨?_, ?_, ?_, ?_, ?_⟩
  · simp [revertVaultEvent]
  · simp [processVaultEvent, issued]
  · simp [revertVaultEvent, issued]
  · simp [revertVaultEvent, issued]
  · simp [revertVaultEvent, issued]

/-- C5 fails on the code.  For the kinds Withdrawal and PricingDataSet the
applier issues a store mutation and the reverter has no entry: it issues no
call and returns nil. -/
theorem applier_kinds_without_revert (A : Adaptors) (S : Store σ) (e : Event) (w : World σ) :
    (issued w (processVaultEvent A S { e with EventName := "Withdrawal" } w).2
        = [Call.WithdrawIndex e.VaultAddress
            (A.DepositOrWithdraw (A.GetJunoEvent { e with EventName := "Withdrawal" })).1
            (A.DepositOrWithdraw (A.GetJunoEvent { e with EventName := "Withdrawal" })).2.1
            (A.DepositOrWithdraw (A.GetJunoEvent { e with EventName := "Withdrawal" })).2.2
            e.BlockNumber]
      ∧ issued w (revertVaultEvent A S { e with EventName := "Withdrawal" } w).2 = []
      ∧ (revertVaultEvent A S { e with EventName := "Withdrawal" } w).1 = Result.nil)
    ∧ (issued w (processVaultEvent A S { e with EventName := "PricingDataSet" } w).2
        = [Call.PricingDataSetIndex
            (A.PricingDataSet (A.GetJunoEvent { e with EventName := "PricingDataSet" })).2.2.2
            (A.PricingDataSet (A.GetJunoEvent { e with EventName := "PricingDataSet" })).1
            (A.PricingDataSet (A.GetJunoEvent { e with EventName := "PricingDataSet" })).2.1
            (A.PricingDataSet (A.GetJunoEvent { e with EventName := "PricingDataSet" })).2.2.1]
      ∧ issued w (revertVaultEvent A S { e with EventName := "PricingDataSet" } w).2 = []
      ∧ (revertVaultEvent A S { e with EventName := "PricingDataSet" } w).1 = Result.nil) := by
  refine ⟨⟨?_, ?_, ?_⟩, ⟨?_, ?_, ?_⟩⟩
  · simp [processVaultEvent, issued]
  · simp [revertVaultEvent, issued]
  · simp [revertVaultEvent]
  · simp [processVaultEvent, issued]
  · simp [revertVaultEvent, issued]
  · simp [revertVaultEvent]

/-- C6 (lookup failure is surfaced).  For every AuctionStarted, AuctionEnded or
OptionRoundSettled event: when `GetOptionRoundByAddress` on the round address of
the event fails, `revertVaultEvent` returns that error and the lookup is the
only call it issues; when the lookup succeeds, the calls it issues are the
lookup and then the revert mutation of the kind, with the vault address of the
round that was looked up, the round address and the block number of the
event. -/
theorem revert_lookup_failure_surfaced (A : Adaptors) (S : Store σ) (e : Event) (w : World σ)
    (hk : e.EventName = "AuctionStarted" ∨ e.EventName = "AuctionEnded" ∨
      e.EventName = "OptionRoundSettled") :
    (∀ err, (lookupRound S (lookupAddress A e) w).1 = Except.error err →
        (revertVaultEvent A S e w).1 = Result.error err
        ∧ (revertVaultEvent A S e w).2.store = (lookupRound S (lookupAddress A e) w).2.store
        ∧ issued w (revertVaultEvent A S e w).2
            = [Call.GetOptionRoundByAddress (lookupAddress A e)])
    ∧ (∀ r, (lookupRound S (lookupAddress A e) w).1 = Except.ok r →
        issued w (revertVaultEvent A S e w).2
            = [Call.GetOptionRoundByAddress (lookupAddress A e),
               revertMutation e r.VaultAddress (lookupAddress A e)]
        ∧ (revertVaultEvent A S e w).2.store
            = (S.exec (revertMutation e r.VaultAddress (lookupAddress A e))
                (lookupRound S (lookupAddress A e) w).2.store).2) := by
  constructor
  · intro err hl
    rw [revert_lookup_kinds A S e w hk, hl]
    exact ⟨rfl, rfl, issued_append _ _ _ rfl⟩
  · intro r hl
    rw [revert_lookup_kinds A S e w hk, hl]
    exact ⟨issued_append _ _ _ (by simp), rfl⟩

/-- C6 on the sample store: round `0x9` is unknown and the revert of its
AuctionStarted event returns the error of the lookup after the lookup alone;
round `0x2` is known and the revert of its AuctionEnded event issues the lookup
and `AuctionEndedRevert` with the vault `0xv` of the round. -/
theorem revert_lookup_failure_surfaced_witness :
    ((revertVaultEvent sampleAdaptors (sampleStore acceptAll sampleRounds sampleBlocks)
          orphanAuctionStartedEvent emptyWorld).1 = Result.error "record not found"
      ∧ issued emptyWorld
          (revertVaultEvent sampleAdaptors (sampleStore acceptAll sampleRounds sampleBlocks)
            orphanAuctionStartedEvent emptyWorld).2
        = [Call.GetOptionRoundByAddress "0x9"])
    ∧ issued emptyWorld
        (revertVaultEvent sampleAdaptors (sampleStore acceptAll sampleRounds sampleBlocks)
          auctionEndedEvent emptyWorld).2
      = [Call.GetOptionRoundByAddress "0x2", Call.AuctionEndedRevert "0xv" "0x2" 100] :=
  have h1 := (revert_lookup_failure_surfaced sampleAdaptors
    (sampleStore acceptAll sampleRounds sampleBlocks) orphanAuctionStartedEvent emptyWorld
    (Or.inl rfl)).1 "record not found" rfl
  have h2 := (revert_lookup_failure_surfaced sampleAdaptors
    (sampleStore acceptAll sampleRounds sampleBlocks) auctionEndedEvent emptyWorld
    (Or.inr (Or.inl rfl))).2 ⟨"0x2", "0xv", 0, 0⟩ rfl
  ⟨⟨h1.1, h1.2.2⟩, h2.1⟩

/-- C7 (OptionsExercised).  For every OptionsExercised event the applier issues
exactly `UpdateOptionBuyerFields(buyer, round, has_minted: true)`; the reverter
issues exactly `UpdateOptionBuyerFields(buyer, round, has_minted: false)` when
the decoded mintable quantity is strictly positive, and when it is zero or
negative it issues no call and returns nil; so the reverter issues that call if
and only if the quantity is strictly positive. -/
theorem options_exercised_asymmetry (A : Adaptors) (S : Store σ) (e : Event) (w : World σ)
    (hk : e.EventName = "OptionsExercised") :
    issued w (processVaultEvent A S e w).2
      = [Call.UpdateOptionBuyerFields (A.OptionsExercised (A.GetJunoEvent e)).1
          (A.OptionsExercised (A.GetJunoEvent e)).2.2.2.2 [("has_minted", true)]]
    ∧ (0 < (A.OptionsExercised (A.GetJunoEvent e)).2.2.1 →
        issued w (revertVaultEvent A S e w).2
          = [Call.UpdateOptionBuyerFields (A.OptionsExercised (A.GetJunoEvent e)).1
              (A.OptionsExercised (A.GetJunoEvent e)).2.2.2.2 [("has_minted", false)]])
    ∧ ((A.OptionsExercised (A.GetJunoEvent e)).2.2.1 ≤ 0 →
        revertVaultEvent A S e w = (Result.nil, w))
    ∧ (Call.UpdateOptionBuyerFields (A.OptionsExercised (A.GetJunoEvent e)).1
          (A.OptionsExercised (A.GetJunoEvent e)).2.2.2.2 [("has_minted", false)]
        ∈ issued w (revertVaultEvent A S e w).2
      ↔ 0 < (A.OptionsExercised (A.GetJunoEvent e)).2.2.1) := by
  refine ⟨?_, ?_, ?_, ?_⟩
  · simp [processVaultEvent, issued, hk]
  · intro hpos
    simp [revertVaultEvent, issued, hk, hpos]
  · intro hle
    simp [revertVaultEvent, hk, not_lt.mpr hle]
  · by_cases hpos : 0 < (A.OptionsExercised (A.GetJunoEvent e)).2.2.1
    · simp [revertVaultEvent, issued, hk, hpos]
    · simp [revertVaultEvent, issued, hk, hpos]

/-- C7 on two events of buyer `0x1` in round `0x2`: with mintable quantity 3 the
reverter clears the flag, with mintable quantity 0 it does nothing; the applier
sets the flag for both. -/
theorem options_exercised_asymmetry_witness :
    issued emptyWorld
        (revertVaultEvent sampleAdaptors (sampleStore acceptAll sampleRounds sampleBlocks)
          exercisedEvent emptyWorld).2
      = [Call.UpdateOptionBuyerFields "0x1" "0x2" [("has_minted", false)]]
    ∧ revertVaultEvent sampleAdaptors (sampleStore acceptAll sampleRounds sampleBlocks)
        exercisedNothingEvent emptyWorld = (Result.nil, emptyWorld)
    ∧ issued emptyWorld
        (processVaultEvent sampleAdaptors (sampleStore acceptAll sampleRounds sampleBlocks)
          exercisedNothingEvent emptyWorld).2
      = [Call.UpdateOptionBuyerFields "0x1" "0x2" [("has_minted", true)]] :=
  ⟨(options_exercised_asymmetry sampleAdaptors (sampleStore acceptAll sampleRounds sampleBlocks)
      exercisedEvent emptyWorld rfl).2.1 (by decide),
   (options_exercised_asymmetry sampleAdaptors (sampleStore acceptAll sampleRounds sampleBlocks)
      exercisedNothingEvent emptyWorld rfl).2.2.1 (by decide),
   (options_exercised_asymmetry sampleAdaptors (sampleStore acceptAll sampleRounds sampleBlocks)
      exercisedNothingEvent emptyWorld rfl).1⟩

/-! ## Events of a kind that the switch does not list -/

theorem handler_unlisted (A : Adaptors) (S : Store σ) (m : Mode) (e : Event)
    (hk : e.EventName ∉ kindsOf m) (w : World σ) : handlerOf A S m e w = (Result.nil, w) := by
  cases m
  · simp only [kindsOf, processKinds, List.mem_cons, List.mem_singleton, not_or,
      List.mem_nil_iff, not_false_eq_true, and_true] at hk
    obtain ⟨h1, h2, h3, h4, h5, h6, h7, h8, h9, h10, h11, h12, h13, h14⟩ := hk
    simp [handlerOf, processVaultEvent, *]
  · simp only [kindsOf, revertKinds, List.mem_cons, List.mem_singleton, not_or,
      List.mem_nil_iff, not_false_eq_true, and_true] at hk
    obtain ⟨h1, h2, h3, h4, h5, h6, h7, h8, h9, h10, h11, h12, h13, h14⟩ := hk
    simp [handlerOf, revertVaultEvent, *]

theorem eventLoop_skip (S : Store σ) (handler : Event → World σ → Result × World σ)
    (e : Event) (hskip : ∀ w, handler e w = (Result.nil, w)) (pre post : List Event) :
    ∀ w, eventLoop S handler (pre ++ e :: post) w = eventLoop S handler (pre ++ post) w := by
  induction pre with
  | nil =>
    intro w
    simp only [List.nil_append, eventLoop, hskip]
  | cons a rest ih =>
    intro w
    cases hr : (handler a w).1 with
    | nil =>
      simp only [List.cons_append, eventLoop, hr]
      exact ih _
    | error err => simp only [List.cons_append, eventLoop, hr]
    | panic => simp only [List.cons_append, eventLoop, hr]

/-- C10 (kinds that the switch does not list).  In both passes, for every event
whose EventName is not a label of the switch of the handler: the handler
returns nil in the same world (it issues no call and the store is untouched);
a batch is the same with and without the event; and when the other events of
the batch return nil the batch with the event is committed. -/
theorem unlisted_kinds_accepted (A : Adaptors) (S : Store σ) (m : Mode) (e : Event)
    (hk : e.EventName ∉ kindsOf m) :
    (∀ w, handlerOf A S m e w = (Result.nil, w))
    ∧ (∀ pre post w,
        runBatch S (handlerOf A S m) (pre ++ e :: post) w
          = runBatch S (handlerOf A S m) (pre ++ post) w)
    ∧ (∀ pre post w w1,
        allNil (handlerOf A S m) (pre ++ post) (call S Call.BeginTx w).2 = some w1 →
        runBatch S (handlerOf A S m) (pre ++ e :: post) w
          = (none, (call S Call.CommitTx w1).2)) := by
  have hskip := handler_unlisted A S m e hk
  have hrun : ∀ pre post w,
      runBatch S (handlerOf A S m) (pre ++ e :: post) w
        = runBatch S (handlerOf A S m) (pre ++ post) w := by
    intro pre post w
    simp only [runBatch, eventLoop_skip S (handlerOf A S m) e hskip pre post]
  refine ⟨hskip, hrun, ?_⟩
  intro pre post w w1 h
  rw [hrun, runBatch_allNil S (handlerOf A S m) (pre ++ post) w w1 h]

/-- C10 on an event of kind ContractUpgraded: neither handler does anything on
it, and the apply batch that holds it between a deposit and a bid is
committed with the calls of the deposit and the bid alone. -/
theorem unlisted_kinds_accepted_witness :
    processVaultEvent sampleAdaptors (sampleStore acceptAll sampleRounds sampleBlocks)
        unlistedEvent emptyWorld = (Result.nil, emptyWorld)
    ∧ revertVaultEvent sampleAdaptors (sampleStore acceptAll sampleRounds sampleBlocks)
        unlistedEvent emptyWorld = (Result.nil, emptyWorld)
    ∧ (runBatch (sampleStore acceptAll sampleRounds sampleBlocks)
        (handlerOf sampleAdaptors (sampleStore acceptAll sampleRounds sampleBlocks) Mode.apply)
        ([depositEvent] ++ unlistedEvent :: [bidPlacedEvent]) emptyWorld).2.log
      = [Call.BeginTx, Call.DepositIndex "0xv" "0x1" 10 20 100,
          Call.BidPlacedIndex ⟨"0x7", "0x2", "0x1", 5, 3, 1⟩ ⟨"0x1", "0x2", false, false⟩,
          Call.CommitTx] :=
  ⟨(unlisted_kinds_accepted sampleAdaptors (sampleStore acceptAll sampleRounds sampleBlocks)
      Mode.apply unlistedEvent (by decide)).1 emptyWorld,
   (unlisted_kinds_accepted sampleAdaptors (sampleStore acceptAll sampleRounds sampleBlocks)
      Mode.revert unlistedEvent (by decide)).1 emptyWorld,
   congrArg (fun r => r.2.log)
     ((unlisted_kinds_accepted sampleAdaptors (sampleStore acceptAll sampleRounds sampleBlocks)
        Mode.apply unlistedEvent (by decide)).2.2 [depositEvent] [bidPlacedEvent] emptyWorld _
        rfl)⟩

/-! ## The loop of the listener -/

theorem handleNotification_channel (A : Adaptors) (S : Store σ)
    (Unmarshal : String → Except Err blockEventData) (m : Mode) (n : Notification)
    (w : World σ) (hch : n.Channel = channelOf m) :
    handleNotification A S Unmarshal n w
      = processNotification S Unmarshal (handlerOf A S m) n w := by
  cases m <;> simp [handleNotification, hch, channelOf, handlerOf]

/-- C9 (the loop stops on the first error of a batch).  For every notification
on a channel that the switch matches: when the payload does not parse, or the
events of the block cannot be fetched, or an event of the batch returns an
error (the events before it having returned nil), handling the notification
ends in a `return` of `Listener`, and the run of the loop ends there whatever
notifications follow: none of them is handled. -/
theorem loop_stops_on_batch_error (A : Adaptors) (S : Store σ)
    (Unmarshal : String → Except Err blockEventData) (m : Mode) (n : Notification)
    (rest : List (Except Err Notification)) (w : World σ)
    (hch : n.Channel = channelOf m)
    (hfail : (∃ err, Unmarshal n.Payload = Except.error err)
      ∨ (∃ d err, Unmarshal n.Payload = Except.ok d
          ∧ (fetchEvents S d.BlockNumber w).1 = Except.error err)
      ∨ (∃ d pre e post w1 err, Unmarshal n.Payload = Except.ok d
          ∧ (fetchEvents S d.BlockNumber w).1 = Except.ok (pre ++ e :: post)
          ∧ allNil (handlerOf A S m) pre
              (call S Call.BeginTx (fetchEvents S d.BlockNumber w).2).2 = some w1
          ∧ (handlerOf A S m e w1).1 = Result.error err)) :
    (handleNotification A S Unmarshal n w).1 = some Exit.returned
    ∧ listenLoop A S Unmarshal (Except.ok n :: rest) w
        = (Exit.returned, (handleNotification A S Unmarshal n w).2) := by
  have h1 : (handleNotification A S Unmarshal n w).1 = some Exit.returned := by
    rw [handleNotification_channel A S Unmarshal m n w hch]
    rcases hfail with ⟨err, hp⟩ | ⟨d, err, hp, hf⟩ | ⟨d, pre, e, post, w1, err, hp, hf, ha, he⟩
    · simp only [processNotification, hp]
    · simp only [processNotification, hp, hf]
    · simp only [processNotification, hp, hf,
        runBatch_error S (handlerOf A S m) pre e post err _ w1 ha he]
  refine ⟨h1, ?_⟩
  simp only [listenLoop, h1]

/-- C9 on the sample store, which rejects the pricing data of block 100 and has
no events for block 102: a payload that does not parse, a block that cannot be
fetched and a batch with a rejected event each end the loop, and the
notification for block 101 that follows is not handled. -/
theorem loop_stops_on_batch_error_witness :
    (listenLoop sampleAdaptors (sampleStore rejectPricing sampleRounds sampleBlocks)
        sampleUnmarshal
        [Except.ok ⟨"new_block", "blockNumber=100"⟩, Except.ok ⟨"new_block", payload101⟩]
        emptyWorld
      = (Exit.returned, emptyWorld))
    ∧ (listenLoop sampleAdaptors (sampleStore rejectPricing sampleRounds sampleBlocks)
        sampleUnmarshal
        [Except.ok ⟨"revert_block", payload102⟩, Except.ok ⟨"new_block", payload101⟩]
        emptyWorld
      = (Exit.returned, ⟨([], []), [Call.GetEventsByBlockNumber 102]⟩))
    ∧ (listenLoop sampleAdaptors (sampleStore rejectPricing sampleRounds sampleBlocks)
        sampleUnmarshal
        [Except.ok ⟨"new_block", payload100⟩, Except.ok ⟨"new_block", payload101⟩]
        emptyWorld
      = (Exit.returned, ⟨([], []), [Call.GetEventsByBlockNumber 100, Call.BeginTx,
          Call.DepositIndex "0xv" "0x1" 10 20 100,
          Call.BidPlacedIndex ⟨"0x7", "0x2", "0x1", 5, 3, 1⟩ ⟨"0x1", "0x2", false, false⟩,
          Call.PricingDataSetIndex "0x2" 1 2 3, Call.RollbackTx]⟩)) :=
  ⟨(loop_stops_on_batch_error sampleAdaptors
      (sampleStore rejectPricing sampleRounds sampleBlocks) sampleUnmarshal Mode.apply
      ⟨"new_block", "blockNumber=100"⟩ [Except.ok ⟨"new_block", payload101⟩] emptyWorld rfl
      (Or.inl ⟨"invalid character", rfl⟩)).2,
   (loop_stops_on_batch_error sampleAdaptors
      (sampleStore rejectPricing sampleRounds sampleBlocks) sampleUnmarshal Mode.revert
      ⟨"revert_block", payload102⟩ [Except.ok ⟨"new_block", payload101⟩] emptyWorld rfl
      (Or.inr (Or.inl ⟨⟨102⟩, "no events", rfl, rfl⟩))).2,
   (loop_stops_on_batch_error sampleAdaptors
      (sampleStore rejectPricing sampleRounds sampleBlocks) sampleUnmarshal Mode.apply
      ⟨"new_block", payload100⟩ [Except.ok ⟨"new_block", payload101⟩] emptyWorld rfl
      (Or.inr (Or.inr ⟨⟨100⟩, [depositEvent, bidPlacedEvent], pricingEvent, [], _, "rejected",
        rfl, rfl, rfl, rfl⟩))).2⟩

/-- C4 fails on the code.  `Listener` subscribes with `LISTEN new_event` and
`LISTEN revert_block`, and the switch matches "new_block" and "revert_block":
when both subscriptions succeed they are the only calls before the first
notification, a notification on the subscribed channel "new_event" is handled
by no case (no call is issued), and the run is the same as without it. -/
theorem subscribed_channel_not_dispatched (A : Adaptors) (S : Store σ)
    (Unmarshal : String → Except Err blockEventData) (payload : String)
    (rest : List (Except Err Notification)) (w : World σ)
    (h1 : (call S (Call.Exec "LISTEN new_event") w).1 = none)
    (h2 : (call S (Call.Exec "LISTEN revert_block")
      (call S (Call.Exec "LISTEN new_event") w).2).1 = none) :
    issued w (Listener A S Unmarshal [] w).2
      = [Call.Exec "LISTEN new_event", Call.Exec "LISTEN revert_block"]
    ∧ (∀ w1, handleNotification A S Unmarshal ⟨"new_event", payload⟩ w1 = (none, w1))
    ∧ Listener A S Unmarshal (Except.ok ⟨"new_event", payload⟩ :: rest) w
        = Listener A S Unmarshal rest w := by
  have hn : ∀ w1, handleNotification A S Unmarshal ⟨"new_event", payload⟩ w1 = (none, w1) := by
    intro w1
    simp [handleNotification]
  refine ⟨?_, hn, ?_⟩
  · simp only [Listener, h1, h2, listenLoop]
    exact issued_append _ _ _ (by simp)
  · simp only [Listener, h1, h2, listenLoop, hn]

/-- C4 at the failing input: the notification for block 100 arrives on the
subscribed channel "new_event" and no batch runs, the listener waits for the
next notification having issued the two subscriptions only; the same
notification on "new_block" runs the batch. -/
theorem subscribed_channel_not_dispatched_witness :
    Listener sampleAdaptors (sampleStore acceptAll sampleRounds sampleBlocks) sampleUnmarshal
        [Except.ok ⟨"new_event", payload100⟩] emptyWorld
      = (Exit.waiting, ⟨([], []),
          [Call.Exec "LISTEN new_event", Call.Exec "LISTEN revert_block"]⟩)
    ∧ (Listener sampleAdaptors (sampleStore acceptAll sampleRounds sampleBlocks) sampleUnmarshal
        [Except.ok ⟨"new_block", payload100⟩] emptyWorld).2.log
      = [Call.Exec "LISTEN new_event", Call.Exec "LISTEN revert_block",
          Call.GetEventsByBlockNumber 100, Call.BeginTx,
          Call.DepositIndex "0xv" "0x1" 10 20 100,
          Call.BidPlacedIndex ⟨"0x7", "0x2", "0x1", 5, 3, 1⟩ ⟨"0x1", "0x2", false, false⟩,
          Call.PricingDataSetIndex "0x2" 1 2 3, Call.CommitTx] :=
  ⟨(subscribed_channel_not_dispatched sampleAdaptors
      (sampleStore acceptAll sampleRounds sampleBlocks) sampleUnmarshal payload100 []
      emptyWorld rfl rfl).2.2,
   rfl⟩

/-! ## BidUpdated -/

/-- The calls of the two handlers on a BidUpdated event.  The applier issues one
`BidUpdatedIndex` and the reverter one `BidUpdatedRevert`, with the same bid id
and round address; the reverter passes the third result of the decoder (the
old tree nonce) and, as the amount, the second result of the decoder, which is
the value the applier passes as the price.  What the two mutations do with
these arguments is decided in the store. -/
theorem bid_updated_calls (A : Adaptors) (S : Store σ) (e : Event) (w : World σ)
    (hk : e.EventName = "BidUpdated") :
    issued w (processVaultEvent A S e w).2
      = [Call.BidUpdatedIndex (A.BidUpdated (A.GetJunoEvent e)).2.2.2.2
          (A.BidUpdated (A.GetJunoEvent e)).1 (A.BidUpdated (A.GetJunoEvent e)).2.1
          (A.BidUpdated (A.GetJunoEvent e)).2.2.2.1]
    ∧ issued w (revertVaultEvent A S e w).2
      = [Call.BidUpdatedRevert (A.BidUpdated (A.GetJunoEvent e)).1
          (A.BidUpdated (A.GetJunoEvent e)).2.2.2.2 (A.BidUpdated (A.GetJunoEvent e)).2.1
          (A.BidUpdated (A.GetJunoEvent e)).2.2.1] := by
  constructor
  · simp [processVaultEvent, issued, hk]
  · simp [revertVaultEvent, issued, hk]

/-! ## The kinds on which the reverter does mirror the applier -/

/-- Apart from Withdrawal and PricingDataSet, every kind of the applier has an
entry in the reverter: on an event of such a kind the reverter issues a call,
or panics on `junoEvent.Data[2]` (OptionRoundDeployed with fewer than three
data felts), or the event is an OptionsExercised with a mintable quantity that
is not positive. -/
theorem reverter_entries (A : Adaptors) (S : Store σ) (e : Event) (w : World σ)
    (hk : e.EventName ∈ processKinds) (h1 : e.EventName ≠ "Withdrawal")
    (h2 : e.EventName ≠ "PricingDataSet") :
    issued w (revertVaultEvent A S e w).2 ≠ []
    ∨ (revertVaultEvent A S e w).1 = Result.panic
    ∨ (e.EventName = "OptionsExercised"
        ∧ (A.OptionsExercised (A.GetJunoEvent e)).2.2.1 ≤ 0) := by
  simp only [processKinds, List.mem_cons, List.mem_singleton, List.mem_nil_iff, or_false] at hk
  rcases hk with h | h | h | h | h | h | h | h | h | h | h | h | h | h
  · left; simp [revertVaultEvent, issued, h]
  · exact absurd h h1
  · left; simp [revertVaultEvent, issued, h]
  · left; simp [revertVaultEvent, issued, h]
  · cases hd : (A.GetJunoEvent e).Data[2]? with
    | none => right; left; simp [revertVaultEvent, h, hd]
    | some f => left; simp [revertVaultEvent, issued, h, hd]
  · exact absurd h h2
  · left
    rw [revert_lookup_kinds A S e w (Or.inl h)]
    cases (lookupRound S (lookupAddress A e) w).1 <;> simp [issued]
  · left
    rw [revert_lookup_kinds A S e w (Or.inr (Or.inl h))]
    cases (lookupRound S (lookupAddress A e) w).1 <;> simp [issued]
  · left
    rw [revert_lookup_kinds A S e w (Or.inr (Or.inr h))]
    cases (lookupRound S (lookupAddress A e) w).1 <;> simp [issued]
  · left; simp [revertVaultEvent, issued, h]
  · left; simp [revertVaultEvent, issued, h]
  · left; simp [revertVaultEvent, issued, h]
  · by_cases hpos : 0 < (A.OptionsExercised (A.GetJunoEvent e)).2.2.1
    · left; simp [revertVaultEvent, issued, h, hpos]
    · right; right; exact ⟨h, not_lt.mp hpos⟩
  · left; simp [revertVaultEvent, issued, h]

/-- Apart from AuctionStarted, AuctionEnded and OptionRoundSettled, the error of
the mutation that the reverter issues is the error it returns. -/
theorem revert_error_propagated_elsewhere (A : Adaptors) (S : Store σ) (e : Event)
    (w : World σ) (c : Call) (err : Err)
    (h1 : e.EventName ≠ "AuctionStarted") (h2 : e.EventName ≠ "AuctionEnded")
    (h3 : e.EventName ≠ "OptionRoundSettled")
    (hi : issued w (revertVaultEvent A S e w).2 = [c])
    (hc : (S.exec c w.store).1 = some err) :
    (revertVaultEvent A S e w).1 = Result.error err := by
  by_cases hl : e.EventName ∈ revertKinds
  · simp only [revertKinds, List.mem_cons, List.mem_singleton, List.mem_nil_iff, or_false] at hl
    rcases hl with h | h | h | h | h | h | h | h | h | h | h | h | h | h
    · simp [revertVaultEvent, issued, h] at hi
    · simp [revertVaultEvent, issued, h] at hi ⊢
      subst hi
      simp [finish, hc]
    · simp [revertVaultEvent, issued, h] at hi ⊢
      subst hi
      simp [finish, hc]
    · simp [revertVaultEvent, issued, h] at hi ⊢
      subst hi
      simp [finish, hc]
    · simp [revertVaultEvent, issued, h] at hi ⊢
      subst hi
      simp [finish, hc]
    · cases hd : (A.GetJunoEvent e).Data[2]? with
      | none => simp [revertVaultEvent, issued, h, hd] at hi
      | some f =>
        simp [revertVaultEvent, issued, h, hd] at hi ⊢
        subst hi
        simp [finish, hc]
    · exact absurd h h1
    · exact absurd h h2
    · exact absurd h h3
    · simp [revertVaultEvent, issued, h] at hi ⊢
      subst hi
      simp [finish, hc]
    · simp [revertVaultEvent, issued, h] at hi ⊢
      subst hi
      simp [finish, hc]
    · simp [revertVaultEvent, issued, h] at hi ⊢
      subst hi
      simp [finish, hc]
    · by_cases hpos : 0 < (A.OptionsExercised (A.GetJunoEvent e)).2.2.1
      · simp [revertVaultEvent, issued, h, hpos] at hi ⊢
        subst hi
        simp [finish, hc]
      · simp [revertVaultEvent, issued, h, hpos] at hi
    · simp [revertVaultEvent, issued, h] at hi ⊢
      subst hi
      simp [finish, hc]
  · have hn := handler_unlisted A S Mode.revert e hl w
    simp only [handlerOf] at hn
    simp [hn, issued] at hi

end EventProcessor
